import Mathlib

/-!
Shallow embedding of `uptime_monitor.py` (NetMonitor_Kiosk): the device
registry, the probe-result upsert (`scan_host`), the post-sweep bookkeeping
(baseline marking and stale eviction from `scan_loop`), and the view builder
(`api_devices`).

Modelling conventions:
* Addresses are represented by their numeric value (`Nat`), matching the
  program's sort key `int(ipaddress.ip_address(ip))`; the string form of an
  IPv4 address and its numeric value are in bijection.
* Timestamps (`time.time()` values) are modelled as `Nat` seconds; age
  arithmetic (`now - t`) is carried out in `Int` exactly as Python subtracts.
* The Python dict `devices` is an association list `List (Nat × Record)`;
  key uniqueness is a hypothesis where a theorem needs it.
* The optional dict key `seen_before_baseline` is a `Bool` field that is
  `false` at record creation, matching `d.get("seen_before_baseline", False)`.
-/

namespace UptimeMonitor

/-- `SCAN_INTERVAL_SECONDS = 30` -/
def SCAN_INTERVAL_SECONDS : Nat := 30

/-- `OFFLINE_FORGET_SECONDS = 300` -/
def OFFLINE_FORGET_SECONDS : Nat := 300

/-- `NEW_DEVICE_WINDOW_MINUTES = 5` -/
def NEW_DEVICE_WINDOW_MINUTES : Nat := 5

/-- `NEW_DEVICE_WINDOW_SECONDS = NEW_DEVICE_WINDOW_MINUTES * 60` -/
def NEW_DEVICE_WINDOW_SECONDS : Nat := NEW_DEVICE_WINDOW_MINUTES * 60

/-- One entry of the `devices` dict (the key `ip` is kept outside, as the
association-list key). `seen_before_baseline` is read in the source with
`d.get("seen_before_baseline", False)`, so its absence is modelled as
`false`. -/
structure Record where
  hostname : Option String
  required : Bool
  vip : Bool
  from_known_hosts : Bool
  first_seen : Option Nat
  last_seen : Option Nat
  online : Bool
  created_at : Nat
  seen_before_baseline : Bool
deriving DecidableEq

/-- The shared `devices` map: address value → record. -/
abbrev Registry := List (Nat × Record)

/-- The record built for a fresh dynamic device in `scan_host` when a ping
succeeds for an unknown address (`seen_before_baseline` deliberately not
set, i.e. `false`). -/
def freshRecord (now : Nat) : Record :=
  { hostname := none
    required := false
    vip := false
    from_known_hosts := false
    first_seen := some now
    last_seen := some now
    online := true
    created_at := now
    seen_before_baseline := false }

/-- The in-place update of a known entry on a successful ping:
`if entry["first_seen"] is None: entry["first_seen"] = now`,
`entry["last_seen"] = now`, `entry["online"] = True`. -/
def touchSuccess (now : Nat) (e : Record) : Record :=
  { e with
    first_seen := match e.first_seen with
      | none => some now
      | some f => some f
    last_seen := some now
    online := true }

/-- Replace the value stored under key `k` by `g` of it, leaving every other
pair alone (the in-place dict mutation of `scan_host`). -/
def updateKey (k : Nat) (g : Record → Record) (reg : Registry) : Registry :=
  reg.map (fun p => if p.1 = k then (p.1, g p.2) else p)

/-- `scan_host`'s registry effect for one probe outcome `ok` of address `ip`
observed at time `now` (the locked section of `scan_host`). -/
def upsertProbeResult (ip : Nat) (ok : Bool) (now : Nat) (reg : Registry) :
    Registry :=
  if ok then
    match reg.lookup ip with
    | none => reg ++ [(ip, freshRecord now)]
    | some _ => updateKey ip (touchSuccess now) reg
  else
    match reg.lookup ip with
    | none => reg
    | some _ => updateKey ip (fun e => { e with online := false }) reg

/-- The reference time for eviction,
`d.get("last_seen") or d.get("created_at") or now`, with Python truthiness:
a stored timestamp equal to `0` is falsy and falls through to the next
alternative. -/
def evictBase (last_seen : Option Nat) (created_at : Nat) (now : Nat) : Nat :=
  match last_seen with
  | some t => if t ≠ 0 then t else if created_at ≠ 0 then created_at else now
  | none => if created_at ≠ 0 then created_at else now

/-- The per-record eviction test of `scan_loop`: not known/required, not
online, and offline longer than `OFFLINE_FORGET_SECONDS`. -/
def evictCond (now : Nat) (d : Record) : Bool :=
  !(d.from_known_hosts || d.required) && !d.online &&
    decide ((now : Int) - (evictBase d.last_seen d.created_at now : Nat) >
      (OFFLINE_FORGET_SECONDS : Nat))

/-- The two-phase delete of `scan_loop` (collect `to_delete`, then delete)
equals filtering out every record that satisfies `evictCond`. -/
def evictStale (now : Nat) (reg : Registry) : Registry :=
  reg.filter (fun p => !evictCond now p.2)

/-- Process state: the registry, the global `baseline_done` flag, and
`scan_loop`'s local `first_iteration` flag. -/
structure ScanState where
  devices : Registry
  baseline_done : Bool
  first_iteration : Bool
deriving DecidableEq

/-- The baseline-marking conditional at the top of `scan_loop`'s locked
bookkeeping section. -/
def markBaselineStep (s : ScanState) : ScanState :=
  if s.first_iteration = true ∧ s.baseline_done = false then
    { devices := s.devices.map
        (fun p => (p.1, { p.2 with seen_before_baseline := true }))
      baseline_done := true
      first_iteration := false }
  else s

/-- One complete post-sweep bookkeeping pass of `scan_loop`: baseline
marking, then stale eviction, both at time `now`. -/
def bookkeeping (now : Nat) (s : ScanState) : ScanState :=
  let s1 := markBaselineStep s
  { s1 with devices := evictStale now s1.devices }

/-- An atomic registry event: one probe outcome fed through `scan_host`, or
the end-of-sweep bookkeeping of `scan_loop`. -/
inductive Event where
  | probe (ip : Nat) (ok : Bool) (t : Nat)
  | sweepEnd (t : Nat)
deriving DecidableEq

/-- The wall-clock time at which an event happens. -/
def Event.time : Event → Nat
  | .probe _ _ t => t
  | .sweepEnd t => t

/-- Whether an event is an end-of-sweep bookkeeping pass. -/
def Event.isSweepEnd : Event → Bool
  | .probe _ _ _ => false
  | .sweepEnd _ => true

/-- Apply one event to the process state. -/
def applyEvent (s : ScanState) : Event → ScanState
  | .probe ip ok t => { s with devices := upsertProbeResult ip ok t s.devices }
  | .sweepEnd t => bookkeeping t s

/-- Run a sequence of events. -/
def runEvents (s : ScanState) (es : List Event) : ScanState :=
  es.foldl applyEvent s

/-- Event times are nondecreasing and bounded below by the process start. -/
def validTrace : Nat → List Event → Prop
  | _, [] => True
  | t0, e :: es => t0 ≤ e.time ∧ validTrace e.time es

/-- Well-formedness of a registry relative to the current clock: stored
`first_seen` stamps are in the past, online records carry ordered
`first_seen ≤ last_seen`, and a missing `last_seen` can only belong to an
offline static seed that was never successfully probed. -/
def WFreg (clock : Nat) (reg : Registry) : Prop :=
  ∀ p ∈ reg,
    (∀ f, (p.2 : Record).first_seen = some f → f ≤ clock) ∧
    (p.2.online = true → ∃ f l, p.2.first_seen = some f ∧
      p.2.last_seen = some l ∧ f ≤ l) ∧
    (p.2.last_seen = none → p.2.from_known_hosts = true ∧
      p.2.first_seen = none ∧ p.2.online = false)

/-- One parsed line of `known_hosts.txt` (from `load_known_hosts`). -/
structure StaticInfo where
  hostname : String
  required : Bool
  vip : Bool
deriving DecidableEq

/-- The startup seed record for a static-list entry: offline, no first/last
seen, `created_at = now_init`. -/
def initRecord (t0 : Nat) (i : StaticInfo) : Record :=
  { hostname := some i.hostname
    required := i.required
    vip := i.vip
    from_known_hosts := true
    first_seen := none
    last_seen := none
    online := false
    created_at := t0
    seen_before_baseline := false }

/-- The registry right after the startup seeding loop. -/
def initRegistry (cfg : List (Nat × StaticInfo)) (t0 : Nat) : Registry :=
  cfg.map (fun p => (p.1, initRecord t0 p.2))

/-- Process state at startup: seeded registry, `baseline_done = False`,
`first_iteration = True`. -/
def initState (cfg : List (Nat × StaticInfo)) (t0 : Nat) : ScanState :=
  { devices := initRegistry cfg t0
    baseline_done := false
    first_iteration := true }

/-- One element of the list built inside `api_devices`, before the final
`dev.pop("group", None)`. -/
structure ViewEntry where
  ip : Nat
  hostname : Option String
  required : Bool
  vip : Bool
  online : Bool
  age_seconds : Option Int
  last_seen_seconds_ago : Option Int
  is_new : Bool
  group : Nat
deriving DecidableEq

/-- One element of the JSON `devices` payload, after the `group` key has
been popped. -/
structure DisplayDevice where
  ip : Nat
  hostname : Option String
  required : Bool
  vip : Bool
  online : Bool
  age_seconds : Option Int
  last_seen_seconds_ago : Option Int
  is_new : Bool
deriving DecidableEq

/-- `dev.pop("group", None)`: drop the sort group from an entry. -/
def stripGroup (e : ViewEntry) : DisplayDevice :=
  { ip := e.ip
    hostname := e.hostname
    required := e.required
    vip := e.vip
    online := e.online
    age_seconds := e.age_seconds
    last_seen_seconds_ago := e.last_seen_seconds_ago
    is_new := e.is_new }

/-- The three `continue` checks of `api_devices` for an offline record:
skip a VIP, then skip a non-required record, then skip a non-static one. -/
def offlineHidden (d : Record) : Prop :=
  d.online = false ∧
    (d.vip = true ∨ d.required = false ∨ d.from_known_hosts = false)

instance (d : Record) : Decidable (offlineHidden d) :=
  decidable_of_iff
    (d.online = false ∧
      (d.vip = true ∨ d.required = false ∨ d.from_known_hosts = false))
    Iff.rfl

/-- `age = now - first_seen if first_seen is not None else None`. -/
def viewAge (now : Nat) (d : Record) : Option Int :=
  d.first_seen.map (fun f => (now : Int) - (f : Nat))

/-- `last_seen_ago = now - last_seen if last_seen is not None else None`. -/
def viewLastSeenAgo (now : Nat) (d : Record) : Option Int :=
  d.last_seen.map (fun t => (now : Int) - (t : Nat))

/-- The `is_new` expression of `api_devices` (the `age is not None` clause is
the `match`). -/
def viewIsNew (now : Nat) (baseline_done : Bool) (d : Record) : Bool :=
  d.online && d.first_seen.isSome && baseline_done &&
    !d.seen_before_baseline &&
    (match viewAge now d with
     | some a => decide (a ≤ (NEW_DEVICE_WINDOW_SECONDS : Nat))
     | none => false)

/-- The sort-group chain of `api_devices`:
0 known+required, 1 VIP online, 2 new, 3 rest. -/
def viewGroup (now : Nat) (baseline_done : Bool) (d : Record) : Nat :=
  if d.from_known_hosts && d.required then 0
  else if d.vip && d.online then 1
  else if viewIsNew now baseline_done d then 2
  else 3

/-- The dict appended to `result` for a record that passed the filter. -/
def entryOf (now : Nat) (baseline_done : Bool) (ip : Nat) (d : Record) :
    ViewEntry :=
  { ip := ip
    hostname := d.hostname
    required := d.required
    vip := d.vip
    online := d.online
    age_seconds := viewAge now d
    last_seen_seconds_ago := viewLastSeenAgo now d
    is_new := viewIsNew now baseline_done d
    group := viewGroup now baseline_done d }

/-- The body of `api_devices`'s loop for one `(ip, d)` pair: `none` when the
offline filter skips the record (`continue`), otherwise the entry appended
to `result`. -/
def mkEntry (now : Nat) (baseline_done : Bool) (ip : Nat) (d : Record) :
    Option ViewEntry :=
  if offlineHidden d then none
  else some (entryOf now baseline_done ip d)

/-- The comparison underlying
`result.sort(key=lambda dev: (dev["group"], ipaddress.ip_address(dev["ip"])))`:
lexicographic on (group, numeric address). -/
def viewLE (a b : ViewEntry) : Prop :=
  a.group < b.group ∨ (a.group = b.group ∧ a.ip ≤ b.ip)

instance : DecidableRel viewLE := fun a b =>
  decidable_of_iff (a.group < b.group ∨ (a.group = b.group ∧ a.ip ≤ b.ip))
    Iff.rfl

instance : IsTotal ViewEntry viewLE :=
  ⟨fun a b => by unfold viewLE; omega⟩

instance : IsTrans ViewEntry viewLE :=
  ⟨fun a b c => by unfold viewLE; omega⟩

/-- `api_devices`'s `result` list right after the `sort` call (sorting a
list of pairwise-distinct keys by a total order; the program's stable sort
produces a list sorted by the same comparison). -/
def buildViewEntries (now : Nat) (baseline_done : Bool) (reg : Registry) :
    List ViewEntry :=
  (reg.filterMap (fun p => mkEntry now baseline_done p.1 p.2)).insertionSort
    viewLE

/-- The final `devices` payload of `api_devices`: the sorted entries with
the `group` key popped. -/
def buildView (now : Nat) (baseline_done : Bool) (reg : Registry) :
    List DisplayDevice :=
  (buildViewEntries now baseline_done reg).map stripGroup

/-- The full JSON payload of `api_devices`. -/
structure ApiResponse where
  network : String
  devices : List DisplayDevice
deriving DecidableEq

/-- `api_devices` as a function of the configured network string, the query
time, and the process state. -/
def api_devices (network : String) (now : Nat) (s : ScanState) : ApiResponse :=
  { network := network
    devices := buildView now s.baseline_done s.devices }

/-! ### Spec-side reference definitions (for refinement comparisons) -/

/-- The eviction condition as the spec words it: `fromStaticList=false` and
`required=false` and `online=false` and
`now - (lastSeen ?? createdAt) > forgetThresholdSeconds`. -/
def specEvictCond (now : Nat) (r : Record) : Prop :=
  r.from_known_hosts = false ∧ r.required = false ∧ r.online = false ∧
    (now : Int) - (r.last_seen.getD r.created_at : Nat) >
      (OFFLINE_FORGET_SECONDS : Nat)

instance (now : Nat) (r : Record) : Decidable (specEvictCond now r) :=
  decidable_of_iff
    (r.from_known_hosts = false ∧ r.required = false ∧ r.online = false ∧
      (now : Int) - (r.last_seen.getD r.created_at : Nat) >
        (OFFLINE_FORGET_SECONDS : Nat))
    Iff.rfl

/-- The sort group as the spec words it, in its stated priority order,
taking the record and its computed `isNew` flag: group 0 if
(`fromStaticList` AND `required`); else group 1 if (`vip` AND online); else
group 2 if `isNew`; else group 3. -/
def specGroupOf (r : Record) (isNewFlag : Bool) : Nat :=
  if r.from_known_hosts = true ∧ r.required = true then 0
  else if r.vip = true ∧ r.online = true then 1
  else if isNewFlag = true then 2
  else 3

/-! ### Concrete fixtures for instantiations -/

/-- An offline static-list record that is both required and VIP. -/
def sampleVipStatic : Record :=
  { hostname := some "nas"
    required := true
    vip := true
    from_known_hosts := true
    first_seen := some 100
    last_seen := some 150
    online := false
    created_at := 100
    seen_before_baseline := true }

/-- An offline, never-successfully-probed static required record. -/
def sampleStaticReq : Record :=
  { hostname := some "printer"
    required := true
    vip := false
    from_known_hosts := true
    first_seen := none
    last_seen := none
    online := false
    created_at := 100
    seen_before_baseline := false }

/-- An online dynamic record first seen after the baseline. -/
def sampleDynOnline : Record :=
  { hostname := none
    required := false
    vip := false
    from_known_hosts := false
    first_seen := some 380
    last_seen := some 400
    online := true
    created_at := 380
    seen_before_baseline := false }

/-- A long-offline dynamic record. -/
def sampleDynOffline : Record :=
  { hostname := none
    required := false
    vip := false
    from_known_hosts := false
    first_seen := some 10
    last_seen := some 20
    online := false
    created_at := 10
    seen_before_baseline := true }

/-- A one-entry static seed list. -/
def sampleCfg : List (Nat × StaticInfo) :=
  [(5, { hostname := "printer", required := true, vip := false })]

/-- A probe success followed by one end-of-sweep bookkeeping pass. -/
def sampleTrace : List Event :=
  [.probe 9 true 10, .sweepEnd 20]

/-! ### Association-list helper lemmas -/

theorem lookup_cons_self {k : Nat} {v : Record} {t : Registry} :
    List.lookup k ((k, v) :: t) = some v := by
  simp only [List.lookup, beq_self_eq_true]

theorem lookup_cons_ne {a k : Nat} {v : Record} {t : Registry} (h : ¬a = k) :
    List.lookup a ((k, v) :: t) = List.lookup a t := by
  simp only [List.lookup, beq_false_of_ne h]

theorem lookup_updateKey (k a : Nat) (g : Record → Record) (reg : Registry) :
    (updateKey k g reg).lookup a =
      if a = k then (reg.lookup a).map g else reg.lookup a := by
  induction reg with
  | nil => simp [updateKey]
  | cons p t ih =>
    obtain ⟨pk, pv⟩ := p
    have hhead : updateKey k g ((pk, pv) :: t) =
        (if pk = k then (pk, g pv) else (pk, pv)) :: updateKey k g t := by
      simp only [updateKey, List.map_cons]
    rw [hhead]
    by_cases h1 : pk = k
    · rw [if_pos h1]
      by_cases h2 : a = pk
      · subst h2
        rw [lookup_cons_self, if_pos h1, lookup_cons_self, Option.map_some']
      · rw [lookup_cons_ne h2, lookup_cons_ne h2, ih]
    · rw [if_neg h1]
      by_cases h2 : a = pk
      · subst h2
        rw [lookup_cons_self, if_neg (fun hx => h1 hx), lookup_cons_self]
      · rw [lookup_cons_ne h2, lookup_cons_ne h2, ih]

theorem lookup_append_left_of_some {l1 l2 : Registry} {a : Nat} {v : Record}
    (h : l1.lookup a = some v) : (l1 ++ l2).lookup a = some v := by
  induction l1 with
  | nil => simp [List.lookup] at h
  | cons p t ih =>
    obtain ⟨pk, pv⟩ := p
    by_cases h2 : a = pk
    · subst h2
      rw [lookup_cons_self] at h
      rw [List.cons_append, lookup_cons_self]
      exact h
    · rw [lookup_cons_ne h2] at h
      rw [List.cons_append, lookup_cons_ne h2]
      exact ih h

theorem lookup_append_left_of_none {l1 l2 : Registry} {a : Nat}
    (h : l1.lookup a = none) : (l1 ++ l2).lookup a = l2.lookup a := by
  induction l1 with
  | nil => simp
  | cons p t ih =>
    obtain ⟨pk, pv⟩ := p
    by_cases h2 : a = pk
    · subst h2
      rw [lookup_cons_self] at h
      exact absurd h (by simp)
    · rw [lookup_cons_ne h2] at h
      rw [List.cons_append, lookup_cons_ne h2]
      exact ih h

theorem mem_eq_of_nodup_keys {reg : Registry}
    (hnd : (reg.map Prod.fst).Nodup) {ip : Nat} {r r' : Record}
    (h1 : (ip, r) ∈ reg) (h2 : (ip, r') ∈ reg) : r = r' := by
  induction reg with
  | nil => simp at h1
  | cons p t ih =>
    obtain ⟨pk, pv⟩ := p
    simp only [List.map_cons, List.nodup_cons] at hnd
    rcases List.mem_cons.1 h1 with hc1 | hc1 <;>
      rcases List.mem_cons.1 h2 with hc2 | hc2
    · rw [Prod.mk.injEq] at hc1 hc2
      rw [hc1.2, hc2.2]
    · rw [Prod.mk.injEq] at hc1
      exact absurd (List.mem_map.2 ⟨(ip, r'), hc2, hc1.1⟩) hnd.1
    · rw [Prod.mk.injEq] at hc2
      exact absurd (List.mem_map.2 ⟨(ip, r), hc1, hc2.1⟩) hnd.1
    · exact ih hnd.2 hc1 hc2

/-! ### View-builder helper lemmas -/

theorem mkEntry_eq_some_iff {now : Nat} {b : Bool} {ip : Nat} {d : Record}
    {e : ViewEntry} :
    mkEntry now b ip d = some e ↔
      ¬offlineHidden d ∧ e = entryOf now b ip d := by
  by_cases h : offlineHidden d <;> simp [mkEntry, h, eq_comm]

theorem mkEntry_eq_none_iff {now : Nat} {b : Bool} {ip : Nat} {d : Record} :
    mkEntry now b ip d = none ↔ offlineHidden d := by
  by_cases h : offlineHidden d <;> simp [mkEntry, h]

theorem ip_of_mkEntry_some {now : Nat} {b : Bool} {ip : Nat} {d : Record}
    {e : ViewEntry} (h : mkEntry now b ip d = some e) : e.ip = ip := by
  rw [mkEntry_eq_some_iff] at h
  rw [h.2]
  rfl

theorem mem_buildViewEntries {now : Nat} {b : Bool} {reg : Registry}
    {e : ViewEntry} :
    e ∈ buildViewEntries now b reg ↔
      ∃ p ∈ reg, mkEntry now b p.1 p.2 = some e := by
  unfold buildViewEntries
  rw [List.mem_insertionSort]
  exact List.mem_filterMap

theorem mem_buildView {now : Nat} {b : Bool} {reg : Registry}
    {v : DisplayDevice} :
    v ∈ buildView now b reg ↔
      ∃ e ∈ buildViewEntries now b reg, stripGroup e = v := by
  unfold buildView
  rw [List.mem_map]

theorem entryIp_mem_keys {now : Nat} {b : Bool} {reg : Registry}
    {e : ViewEntry}
    (h : e ∈ reg.filterMap (fun p => mkEntry now b p.1 p.2)) :
    e.ip ∈ reg.map Prod.fst := by
  rw [List.mem_filterMap] at h
  obtain ⟨p, hp, hmk⟩ := h
  exact List.mem_map.2 ⟨p, hp, (ip_of_mkEntry_some hmk).symm⟩

theorem nodup_entry_ips {now : Nat} {b : Bool} {reg : Registry}
    (hnd : (reg.map Prod.fst).Nodup) :
    ((reg.filterMap (fun p => mkEntry now b p.1 p.2)).map
      (fun e => e.ip)).Nodup := by
  induction reg with
  | nil => simp
  | cons p t ih =>
    obtain ⟨pk, pv⟩ := p
    simp only [List.map_cons, List.nodup_cons] at hnd
    cases hmk : mkEntry now b pk pv with
    | none => simpa [List.filterMap_cons, hmk] using ih hnd.2
    | some e =>
      rw [List.filterMap_cons, hmk]
      rw [List.map_cons, List.nodup_cons]
      refine ⟨fun hc => ?_, ih hnd.2⟩
      rw [List.mem_map] at hc
      obtain ⟨e', he', hip⟩ := hc
      have h1 : e'.ip ∈ t.map Prod.fst := entryIp_mem_keys he'
      rw [hip, ip_of_mkEntry_some hmk] at h1
      exact hnd.1 h1

/-! ### C5: firstSeen monotonicity -/

/-- **C5**: once a record's `first_seen` is set to some timestamp, no
subsequent probe outcome (successful or failed) applied through
`upsertProbeResult` changes, clears, or moves it: any record stored under
the same address afterwards still has exactly that `first_seen`. -/
theorem first_seen_monotone (reg : Registry) (ip p : Nat) (ok : Bool)
    (now t : Nat) (r r' : Record)
    (h1 : reg.lookup ip = some r) (h2 : r.first_seen = some t)
    (h3 : (upsertProbeResult p ok now reg).lookup ip = some r') :
    r'.first_seen = some t := by
  unfold upsertProbeResult at h3
  cases ok with
  | false =>
    rw [if_neg Bool.false_ne_true] at h3
    cases hp : reg.lookup p with
    | none =>
      simp only [hp] at h3
      rw [h1] at h3
      cases h3
      exact h2
    | some q =>
      simp only [hp] at h3
      rw [lookup_updateKey] at h3
      by_cases hip : ip = p
      · rw [if_pos hip, h1] at h3
        rw [Option.map_some'] at h3
        cases h3
        exact h2
      · rw [if_neg hip, h1] at h3
        cases h3
        exact h2
  | true =>
    rw [if_pos rfl] at h3
    cases hp : reg.lookup p with
    | none =>
      simp only [hp] at h3
      rw [lookup_append_left_of_some h1] at h3
      cases h3
      exact h2
    | some q =>
      simp only [hp] at h3
      rw [lookup_updateKey] at h3
      by_cases hip : ip = p
      · rw [if_pos hip, h1] at h3
        rw [Option.map_some'] at h3
        cases h3
        rw [touchSuccess, h2]
      · rw [if_neg hip, h1] at h3
        cases h3
        exact h2

/-- Witness for C5 at a concrete input: a failed probe at time 500 keeps
`first_seen = 380`. -/
theorem first_seen_monotone_witness :
    (upsertProbeResult 3 false 500 [(3, sampleDynOnline)]).lookup 3 =
      some { sampleDynOnline with online := false } ∧
    { sampleDynOnline with online := false }.first_seen = some 380 :=
  ⟨by decide,
   first_seen_monotone [(3, sampleDynOnline)] 3 3 false 500 380
     sampleDynOnline { sampleDynOnline with online := false }
     (by decide) (by decide) (by decide)⟩

/-! ### C6: upsert on success -/

/-- **C6**: a successful probe of an unknown address appends a fresh dynamic
record with `from_known_hosts = false`, `first_seen = last_seen = now`,
`online = true`; a successful probe of a known address sets `online := true`,
always sets `last_seen := now`, sets `first_seen := now` only when it was
unset, and touches no other field. -/
theorem upsert_success (reg : Registry) (ip now : Nat) :
    (reg.lookup ip = none →
      upsertProbeResult ip true now reg = reg ++ [(ip, freshRecord now)] ∧
      (freshRecord now).from_known_hosts = false ∧
      (freshRecord now).first_seen = some now ∧
      (freshRecord now).last_seen = some now ∧
      (freshRecord now).online = true) ∧
    (∀ r, reg.lookup ip = some r →
      ∃ r', (upsertProbeResult ip true now reg).lookup ip = some r' ∧
        r'.online = true ∧
        r'.last_seen = some now ∧
        (r.first_seen = none → r'.first_seen = some now) ∧
        (∀ t, r.first_seen = some t → r'.first_seen = some t) ∧
        r'.hostname = r.hostname ∧
        r'.required = r.required ∧
        r'.vip = r.vip ∧
        r'.from_known_hosts = r.from_known_hosts ∧
        r'.created_at = r.created_at ∧
        r'.seen_before_baseline = r.seen_before_baseline) := by
  constructor
  · intro h
    refine ⟨?_, rfl, rfl, rfl, rfl⟩
    unfold upsertProbeResult
    rw [h]
    simp
  · intro r h
    refine ⟨touchSuccess now r, ?_, rfl, rfl, ?_, ?_, rfl, rfl, rfl, rfl,
      rfl, rfl⟩
    · unfold upsertProbeResult
      rw [h, if_pos rfl]
      rw [lookup_updateKey, if_pos rfl, h, Option.map_some']
    · intro hfs
      rw [touchSuccess, hfs]
    · intro t hfs
      rw [touchSuccess, hfs]

/-- Witness for C6: both branches at concrete inputs — fresh creation on an
empty registry and touch of a known record with `first_seen` already set. -/
theorem upsert_success_witness :
    (upsertProbeResult 7 true 50 [] = [] ++ [(7, freshRecord 50)] ∧
      (freshRecord 50).from_known_hosts = false ∧
      (freshRecord 50).first_seen = some 50 ∧
      (freshRecord 50).last_seen = some 50 ∧
      (freshRecord 50).online = true) ∧
    (∃ r', (upsertProbeResult 3 true 500 [(3, sampleDynOnline)]).lookup 3 =
        some r' ∧
      r'.online = true ∧
      r'.last_seen = some 500 ∧
      (sampleDynOnline.first_seen = none → r'.first_seen = some 500) ∧
      (∀ t, sampleDynOnline.first_seen = some t → r'.first_seen = some t) ∧
      r'.hostname = sampleDynOnline.hostname ∧
      r'.required = sampleDynOnline.required ∧
      r'.vip = sampleDynOnline.vip ∧
      r'.from_known_hosts = sampleDynOnline.from_known_hosts ∧
      r'.created_at = sampleDynOnline.created_at ∧
      r'.seen_before_baseline = sampleDynOnline.seen_before_baseline) :=
  ⟨(upsert_success [] 7 50).1 (by decide),
   (upsert_success [(3, sampleDynOnline)] 3 500).2 sampleDynOnline
     (by decide)⟩

/-! ### C7: upsert on failure -/

/-- **C7**: a failed probe of an unknown address leaves the registry
completely unchanged, and a failed probe of a known address stores exactly
the old record with `online := false` (all other fields untouched), leaving
every other address's lookup unchanged. -/
theorem upsert_failure (reg : Registry) (ip now : Nat) :
    (reg.lookup ip = none → upsertProbeResult ip false now reg = reg) ∧
    (∀ r, reg.lookup ip = some r →
      (upsertProbeResult ip false now reg).lookup ip =
        some { r with online := false } ∧
      ∀ a, a ≠ ip →
        (upsertProbeResult ip false now reg).lookup a = reg.lookup a) := by
  constructor
  · intro h
    unfold upsertProbeResult
    rw [h]
    simp
  · intro r h
    constructor
    · unfold upsertProbeResult
      rw [h, if_neg Bool.false_ne_true]
      rw [lookup_updateKey, if_pos rfl, h, Option.map_some']
    · intro a ha
      unfold upsertProbeResult
      rw [h, if_neg Bool.false_ne_true]
      rw [lookup_updateKey, if_neg ha]

/-- Witness for C7: failure on an unknown address is a no-op, and failure on
a known address only clears `online`. -/
theorem upsert_failure_witness :
    (upsertProbeResult 7 false 50 [(3, sampleDynOnline)] =
      [(3, sampleDynOnline)]) ∧
    ((upsertProbeResult 3 false 500 [(3, sampleDynOnline)]).lookup 3 =
      some { sampleDynOnline with online := false }) :=
  ⟨(upsert_failure [(3, sampleDynOnline)] 7 50).1 (by decide),
   ((upsert_failure [(3, sampleDynOnline)] 3 500).2 sampleDynOnline
     (by decide)).1⟩

/-! ### C4: eviction -/

theorem evictBase_eq_getD {ls : Option Nat} {ca : Nat} (now : Nat)
    (h1 : ∀ u, ls = some u → 0 < u) (h2 : 0 < ca) :
    evictBase ls ca now = ls.getD ca := by
  cases ls with
  | none =>
    have : ca ≠ 0 := by omega
    simp [evictBase, this]
  | some u =>
    have : u ≠ 0 := by
      have := h1 u rfl
      omega
    simp [evictBase, this]

theorem evictCond_iff_spec {now : Nat} {r : Record}
    (h1 : ∀ u, r.last_seen = some u → 0 < u) (h2 : 0 < r.created_at) :
    evictCond now r = true ↔ specEvictCond now r := by
  unfold evictCond specEvictCond
  rw [evictBase_eq_getD now h1 h2]
  simp only [Bool.and_eq_true, Bool.not_eq_true', Bool.or_eq_false_iff,
    decide_eq_true_iff]
  tauto

/-- **C4**: `evictStale now` removes exactly the records with
`from_known_hosts = false`, `required = false`, `online = false` whose
offline age `now - (lastSeen ?? createdAt)` exceeds the forget threshold
(stated for registries whose stored timestamps are positive, as every
`time.time()` value is); every other record is retained unchanged, and in
particular no required or static-list record is ever evicted. -/
theorem evict_rule (now : Nat) (reg : Registry)
    (hpos : ∀ p ∈ reg, (∀ u, (p.2 : Record).last_seen = some u → 0 < u) ∧
      0 < p.2.created_at) :
    (∀ ip r, ((ip, r) ∈ evictStale now reg ↔
      ((ip, r) ∈ reg ∧ ¬specEvictCond now r))) ∧
    (∀ ip r, (ip, r) ∈ reg →
      (r.required = true ∨ r.from_known_hosts = true) →
      (ip, r) ∈ evictStale now reg) := by
  constructor
  · intro ip r
    simp only [evictStale, List.mem_filter, Bool.not_eq_true']
    constructor
    · rintro ⟨hm, hc⟩
      refine ⟨hm, fun hs => ?_⟩
      rw [(evictCond_iff_spec (hpos _ hm).1 (hpos _ hm).2).2 hs] at hc
      cases hc
    · rintro ⟨hm, hs⟩
      refine ⟨hm, ?_⟩
      rcases Bool.eq_false_or_eq_true (evictCond now r) with h | h
      · exact absurd ((evictCond_iff_spec (hpos _ hm).1 (hpos _ hm).2).1 h)
          hs
      · exact h
  · intro ip r hm hreq
    simp only [evictStale, List.mem_filter, Bool.not_eq_true']
    refine ⟨hm, ?_⟩
    unfold evictCond
    rcases hreq with h | h <;> simp [h]

/-- Witness for C4: at time 400 a long-offline dynamic record is evicted
while the offline required static record survives. -/
theorem evict_rule_witness :
    ((5, sampleStaticReq) ∈
      evictStale 400 [(4, sampleDynOffline), (5, sampleStaticReq)]) ∧
    ((4, sampleDynOffline) ∉
      evictStale 400 [(4, sampleDynOffline), (5, sampleStaticReq)]) :=
  ⟨(evict_rule 400 [(4, sampleDynOffline), (5, sampleStaticReq)]
      (by decide)).2 5 sampleStaticReq (by decide) (Or.inl (by decide)),
   fun hc =>
     (((evict_rule 400 [(4, sampleDynOffline), (5, sampleStaticReq)]
       (by decide)).1 4 sampleDynOffline).1 hc).2 (by decide)⟩

/-! ### C1: visibility filter -/

/-- **C1** as frozen is false on the code: the VIP check precedes the
required/static check, so an offline record that is VIP *and* required *and*
static is suppressed, contradicting "an offline required+static record
always appears". Concretely, `sampleVipStatic` is offline, required and
static, yet the view is empty. -/
theorem visibility_filter_cex :
    sampleVipStatic.online = false ∧ sampleVipStatic.required = true ∧
    sampleVipStatic.from_known_hosts = true ∧
    (5, sampleVipStatic) ∈ ([(5, sampleVipStatic)] : Registry) ∧
    buildView 200 true [(5, sampleVipStatic)] = [] := by decide

/-- **C1** (amended): for a registry with unique addresses, a record appears
in the view iff it is online, or offline but non-VIP, required and from the
static list; in particular every online record is visible, an offline
non-required or non-static record never appears, and an offline VIP never
appears. -/
theorem visibility_filter (now : Nat) (b : Bool) (reg : Registry)
    (hnd : (reg.map Prod.fst).Nodup) (ip : Nat) (r : Record)
    (hmem : (ip, r) ∈ reg) :
    (∃ v ∈ buildView now b reg, v.ip = ip) ↔
      (r.online = true ∨
        (r.vip = false ∧ r.required = true ∧ r.from_known_hosts = true)) := by
  constructor
  · rintro ⟨v, hv, hip⟩
    rw [mem_buildView] at hv
    obtain ⟨e, he, hstrip⟩ := hv
    rw [mem_buildViewEntries] at he
    obtain ⟨⟨pk, pd⟩, hp, hmk⟩ := he
    have hipe : e.ip = pk := ip_of_mkEntry_some hmk
    have hvip : v.ip = e.ip := by rw [← hstrip]; rfl
    have hpk : pk = ip := by rw [← hipe, ← hvip, hip]
    subst hpk
    have hrd : pd = r := mem_eq_of_nodup_keys hnd hp hmem
    subst hrd
    have hnh : ¬offlineHidden pd := by
      intro hh
      rw [mkEntry, if_pos hh] at hmk
      cases hmk
    unfold offlineHidden at hnh
    by_cases ho : pd.online = true
    · exact Or.inl ho
    · rw [Bool.not_eq_true] at ho
      have hB : ¬(pd.vip = true ∨ pd.required = false ∨
          pd.from_known_hosts = false) := fun hb => hnh ⟨ho, hb⟩
      push_neg at hB
      simp only [ne_eq, Bool.not_eq_true, Bool.not_eq_false] at hB
      exact Or.inr hB
  · intro h
    have hnh : ¬offlineHidden r := by
      unfold offlineHidden
      rcases h with h | ⟨h1, h2, h3⟩
      · rw [h]
        simp
      · rw [h1, h2, h3]
        simp
    refine ⟨stripGroup (entryOf now b ip r), ?_, rfl⟩
    rw [mem_buildView]
    refine ⟨entryOf now b ip r, ?_, rfl⟩
    rw [mem_buildViewEntries]
    exact ⟨(ip, r), hmem, by rw [mkEntry, if_neg hnh]⟩

/-- Witness for C1 (amended): the never-probed offline required static
record does appear in a pre-baseline view. -/
theorem visibility_filter_witness :
    ∃ v ∈ buildView 200 false [(5, sampleStaticReq)], v.ip = 5 :=
  (visibility_filter 200 false [(5, sampleStaticReq)] (by decide) 5
    sampleStaticReq (by decide)).2 (Or.inr (by decide))

/-! ### C3: the isNew rule -/

theorem viewIsNew_iff (now : Nat) (b : Bool) (d : Record) :
    viewIsNew now b d = true ↔
      (d.online = true ∧ b = true ∧ d.seen_before_baseline = false ∧
        ∃ f, d.first_seen = some f ∧ (now : Int) - (f : Nat) ≤ 300) := by
  have hN : ((NEW_DEVICE_WINDOW_SECONDS : Nat) : Int) = 300 := by
    norm_num [NEW_DEVICE_WINDOW_SECONDS, NEW_DEVICE_WINDOW_MINUTES]
  unfold viewIsNew viewAge
  cases hfs : d.first_seen with
  | none => simp [hfs]
  | some f =>
    simp only [Option.map_some', Option.isSome_some, Bool.and_true,
      Bool.and_eq_true, Bool.not_eq_true', decide_eq_true_iff, hN,
      Option.some.injEq]
    constructor
    · rintro ⟨⟨⟨ho, hb⟩, hs⟩, ha⟩
      exact ⟨ho, hb, hs, f, rfl, ha⟩
    · rintro ⟨ho, hb, hs, f', hf', ha⟩
      cases hf'
      exact ⟨⟨⟨ho, hb⟩, hs⟩, ha⟩

/-- **C3**: for every record emitted into a view built at time `now`,
`is_new` is true iff the record is online, `first_seen` is defined, the
baseline flag is set, `seen_before_baseline` is false, and
`now - first_seen` is at most the 300-second new-device window; in
particular `is_new` is false whenever `seen_before_baseline` is true, and
false once more than 300 seconds have elapsed since `first_seen`. -/
theorem is_new_rule (now : Nat) (b : Bool) (ip : Nat) (d : Record)
    (e : ViewEntry) (h : mkEntry now b ip d = some e) :
    (e.is_new = true ↔
      (d.online = true ∧ b = true ∧ d.seen_before_baseline = false ∧
        ∃ f, d.first_seen = some f ∧ (now : Int) - (f : Nat) ≤ 300)) ∧
    (d.seen_before_baseline = true → e.is_new = false) ∧
    (∀ f, d.first_seen = some f → (now : Int) - (f : Nat) > 300 →
      e.is_new = false) := by
  have he : e = entryOf now b ip d := (mkEntry_eq_some_iff.1 h).2
  subst he
  have hn : (entryOf now b ip d).is_new = viewIsNew now b d := rfl
  refine ⟨by rw [hn]; exact viewIsNew_iff now b d, ?_, ?_⟩
  · intro hsb
    rcases Bool.eq_false_or_eq_true (entryOf now b ip d).is_new with hi | hi
    · have := ((viewIsNew_iff now b d).1 (hn ▸ hi)).2.2.1
      rw [hsb] at this
      cases this
    · exact hi
  · intro f hf hgt
    rcases Bool.eq_false_or_eq_true (entryOf now b ip d).is_new with hi | hi
    · obtain ⟨-, -, -, f', hf', ha⟩ := (viewIsNew_iff now b d).1 (hn ▸ hi)
      rw [hf] at hf'
      cases hf'
      omega
    · exact hi

/-- Witness for C3: a dynamic device probed 20 s after its first sighting,
after baseline, is new. -/
theorem is_new_rule_witness :
    ∃ e, mkEntry 400 true 9 sampleDynOnline = some e ∧ e.is_new = true :=
  ⟨entryOf 400 true 9 sampleDynOnline, by decide,
   (is_new_rule 400 true 9 sampleDynOnline
       (entryOf 400 true 9 sampleDynOnline) (by decide)).1.2
     ⟨by decide, rfl, by decide, 380, by decide, by decide⟩⟩

/-! ### C8: grouping and sort order -/

theorem viewGroup_eq_spec (now : Nat) (b : Bool) (d : Record) :
    viewGroup now b d = specGroupOf d (viewIsNew now b d) := by
  unfold viewGroup specGroupOf
  rcases Bool.eq_false_or_eq_true d.from_known_hosts with h1 | h1 <;>
    rcases Bool.eq_false_or_eq_true d.required with h2 | h2 <;>
    rcases Bool.eq_false_or_eq_true d.vip with h3 | h3 <;>
    rcases Bool.eq_false_or_eq_true d.online with h4 | h4 <;>
    rcases Bool.eq_false_or_eq_true (viewIsNew now b d) with h5 | h5 <;>
    simp [h1, h2, h3, h4, h5]

/-- **C8**: for a registry with unique addresses, the entry list built by
`api_devices` is strictly sorted by (group ascending, numeric address
ascending); each entry's group is assigned by the spec's priority chain
(0 static+required, else 1 VIP online, else 2 new, else 3); and the emitted
payload is exactly that list with the group dropped from every entry. -/
theorem sort_order (now : Nat) (b : Bool) (reg : Registry)
    (hnd : (reg.map Prod.fst).Nodup) :
    List.Pairwise
      (fun e1 e2 => e1.group < e2.group ∨
        (e1.group = e2.group ∧ e1.ip < e2.ip))
      (buildViewEntries now b reg) ∧
    buildView now b reg = (buildViewEntries now b reg).map stripGroup ∧
    (∀ e ∈ buildViewEntries now b reg,
      ∃ d, (e.ip, d) ∈ reg ∧ e.group = specGroupOf d e.is_new) := by
  refine ⟨?_, rfl, ?_⟩
  · have h1 : (buildViewEntries now b reg).Pairwise viewLE :=
      List.sorted_insertionSort viewLE _
    have hperm :
        List.Perm (buildViewEntries now b reg)
          (reg.filterMap (fun p => mkEntry now b p.1 p.2)) :=
      List.perm_insertionSort viewLE _
    have h2 : ((buildViewEntries now b reg).map (fun e => e.ip)).Nodup :=
      ((hperm.map (fun e => e.ip)).nodup_iff).2 (nodup_entry_ips hnd)
    have h3 : (buildViewEntries now b reg).Pairwise
        (fun e1 e2 => e1.ip ≠ e2.ip) := List.pairwise_map.1 h2
    refine (h1.and h3).imp ?_
    rintro a c ⟨hle, hne⟩
    rcases hle with h | ⟨hg, hip⟩
    · exact Or.inl h
    · exact Or.inr ⟨hg, lt_of_le_of_ne hip hne⟩
  · intro e he
    rw [mem_buildViewEntries] at he
    obtain ⟨⟨pk, pd⟩, hp, hmk⟩ := he
    have he2 : e = entryOf now b pk pd := (mkEntry_eq_some_iff.1 hmk).2
    refine ⟨pd, ?_, ?_⟩
    · have : e.ip = pk := ip_of_mkEntry_some hmk
      rw [this]
      exact hp
    · rw [he2]
      exact viewGroup_eq_spec now b pd

/-- Witness for C8: a static+required record sorts before a new dynamic
record. -/
theorem sort_order_witness :
    List.Pairwise
      (fun e1 e2 => e1.group < e2.group ∨
        (e1.group = e2.group ∧ e1.ip < e2.ip))
      (buildViewEntries 400 true
        [(9, sampleStaticReq), (3, sampleDynOnline)]) :=
  (sort_order 400 true [(9, sampleStaticReq), (3, sampleDynOnline)]
    (by decide)).1

/-! ### C9: query before the first sweep -/

/-- **C9**: before any sweep (registry = startup static seeds, baseline flag
unset) `api_devices` still yields a well-formed list: every emitted device
comes from the static list and has `is_new = false`, null `age_seconds` and
null `last_seen_seconds_ago` (and is offline). -/
theorem pre_baseline_view (cfg : List (Nat × StaticInfo)) (t0 now : Nat) :
    ∀ v ∈ buildView now false (initRegistry cfg t0),
      v.is_new = false ∧ v.age_seconds = none ∧
      v.last_seen_seconds_ago = none ∧ v.online = false ∧
      v.ip ∈ cfg.map Prod.fst := by
  intro v hv
  rw [mem_buildView] at hv
  obtain ⟨e, he, rfl⟩ := hv
  rw [mem_buildViewEntries] at he
  obtain ⟨⟨pk, pd⟩, hp, hmk⟩ := he
  unfold initRegistry at hp
  rw [List.mem_map] at hp
  obtain ⟨⟨ck, ci⟩, hc, hpair⟩ := hp
  cases hpair
  have he2 : e = entryOf now false ck (initRecord t0 ci) :=
    (mkEntry_eq_some_iff.1 hmk).2
  rw [he2]
  refine ⟨?_, ?_, ?_, ?_, ?_⟩
  · show viewIsNew now false (initRecord t0 ci) = false
    unfold viewIsNew
    simp
  · show viewAge now (initRecord t0 ci) = none
    rfl
  · show viewLastSeenAgo now (initRecord t0 ci) = none
    rfl
  · rfl
  · exact List.mem_map.2 ⟨(ck, ci), hc, rfl⟩

/-- Witness for C9: the concrete one-entry static seed list yields a view
whose single element is the offline, not-new printer. -/
theorem pre_baseline_view_witness :
    (stripGroup (entryOf 200 false 5 (initRecord 100
        ({ hostname := "printer", required := true, vip := false } :
          StaticInfo))) ∈
      buildView 200 false (initRegistry sampleCfg 100)) ∧
    ((stripGroup (entryOf 200 false 5 (initRecord 100
        ({ hostname := "printer", required := true, vip := false } :
          StaticInfo)))).is_new = false ∧
      (stripGroup (entryOf 200 false 5 (initRecord 100
        ({ hostname := "printer", required := true, vip := false } :
          StaticInfo)))).age_seconds = none ∧
      (stripGroup (entryOf 200 false 5 (initRecord 100
        ({ hostname := "printer", required := true, vip := false } :
          StaticInfo)))).last_seen_seconds_ago = none ∧
      (stripGroup (entryOf 200 false 5 (initRecord 100
        ({ hostname := "printer", required := true, vip := false } :
          StaticInfo)))).online = false ∧
      (stripGroup (entryOf 200 false 5 (initRecord 100
        ({ hostname := "printer", required := true, vip := false } :
          StaticInfo)))).ip ∈ sampleCfg.map Prod.fst) :=
  ⟨by decide,
   pre_baseline_view sampleCfg 100 200 _ (by decide)⟩

/-! ### C2: the baseline transition -/

theorem runEvents_cons (s : ScanState) (e : Event) (es : List Event) :
    runEvents s (e :: es) = runEvents (applyEvent s e) es := rfl

theorem bookkeeping_baseline_of_first {s : ScanState} {now : Nat}
    (hfi : s.first_iteration = true) (hbd : s.baseline_done = false) :
    (bookkeeping now s).baseline_done = true := by
  unfold bookkeeping markBaselineStep
  rw [if_pos (⟨hfi, hbd⟩ :
    s.first_iteration = true ∧ s.baseline_done = false)]

theorem bookkeeping_baseline_of_done {s : ScanState} {now : Nat}
    (hbd : s.baseline_done = true) :
    (bookkeeping now s).baseline_done = true := by
  unfold bookkeeping markBaselineStep
  by_cases hc : s.first_iteration = true ∧ s.baseline_done = false
  · rw [hc.2] at hbd
    cases hbd
  · rw [if_neg hc]
    exact hbd

theorem baseline_flag_run (es : List Event) :
    ∀ s : ScanState,
      (s.baseline_done = false → s.first_iteration = true →
        (runEvents s es).baseline_done = es.any Event.isSweepEnd) ∧
      (s.baseline_done = true → (runEvents s es).baseline_done = true) := by
  induction es with
  | nil =>
    intro s
    exact ⟨fun h _ => h, fun h => h⟩
  | cons e t ih =>
    intro s
    constructor
    · intro hb hf
      cases e with
      | probe ip ok ti =>
        rw [runEvents_cons]
        have h1 : (applyEvent s (.probe ip ok ti)).baseline_done =
            s.baseline_done := rfl
        have h2 : (applyEvent s (.probe ip ok ti)).first_iteration =
            s.first_iteration := rfl
        rw [(ih (applyEvent s (.probe ip ok ti))).1 (h1.trans hb)
          (h2.trans hf)]
        simp [Event.isSweepEnd]
      | sweepEnd ti =>
        rw [runEvents_cons]
        have hstep : applyEvent s (Event.sweepEnd ti) = bookkeeping ti s :=
          rfl
        rw [hstep, (ih _).2 (bookkeeping_baseline_of_first hf hb)]
        simp [Event.isSweepEnd]
    · intro hb
      cases e with
      | probe ip ok ti =>
        rw [runEvents_cons]
        exact (ih _).2 hb
      | sweepEnd ti =>
        rw [runEvents_cons]
        exact (ih _).2 (bookkeeping_baseline_of_done hb)

/-- **C2**: at the end of the first completed sweep (`first_iteration` still
true, baseline flag still false) the bookkeeping pass sets the baseline
flag and marks every record present at that instant with
`seen_before_baseline = true`; once the flag is set, every later
bookkeeping pass keeps it set and re-marks no record (surviving records are
bit-for-bit the previous ones); no probe event ever changes the flag; and
over any run from startup, the flag is set iff some sweep has completed. -/
theorem baseline_once (s : ScanState) (now : Nat)
    (hfi : s.first_iteration = true) (hbd : s.baseline_done = false) :
    ((bookkeeping now s).baseline_done = true ∧
      ∀ ip r, (ip, r) ∈ (markBaselineStep s).devices →
        r.seen_before_baseline = true) ∧
    (∀ (s' : ScanState) (t : Nat), s'.baseline_done = true →
      ((bookkeeping t s').baseline_done = true ∧
        ∀ ip r, (ip, r) ∈ (bookkeeping t s').devices →
          (ip, r) ∈ s'.devices)) ∧
    (∀ (s' : ScanState) (e : Event), s'.baseline_done = true →
      (applyEvent s' e).baseline_done = true) ∧
    (∀ (cfg : List (Nat × StaticInfo)) (t0 : Nat) (es : List Event),
      (runEvents (initState cfg t0) es).baseline_done =
        es.any Event.isSweepEnd) := by
  refine ⟨⟨bookkeeping_baseline_of_first hfi hbd, ?_⟩, ?_, ?_, ?_⟩
  · intro ip r hm
    unfold markBaselineStep at hm
    rw [if_pos (⟨hfi, hbd⟩ :
      s.first_iteration = true ∧ s.baseline_done = false)] at hm
    simp only [List.mem_map] at hm
    obtain ⟨q, hq, hqe⟩ := hm
    have : r = { q.2 with seen_before_baseline := true } := by
      rw [Prod.mk.injEq] at hqe
      exact hqe.2.symm
    rw [this]
  · intro s' t hb
    have hmark : markBaselineStep s' = s' := by
      unfold markBaselineStep
      rw [if_neg (fun hc => by rw [hc.2] at hb; cases hb)]
    refine ⟨bookkeeping_baseline_of_done hb, ?_⟩
    intro ip r hm
    unfold bookkeeping at hm
    rw [hmark] at hm
    exact (List.mem_filter.1 hm).1
  · intro s' e hb
    cases e with
    | probe ip ok ti => exact hb
    | sweepEnd ti => exact bookkeeping_baseline_of_done hb
  · intro cfg t0 es
    exact (baseline_flag_run es (initState cfg t0)).1 rfl rfl

/-- Witness for C2: the first bookkeeping pass over the seeded registry
sets the flag and marks the seed; a probe-plus-sweep run ends with the flag
set. -/
theorem baseline_once_witness :
    (bookkeeping 130 (initState sampleCfg 100)).baseline_done = true ∧
    (runEvents (initState sampleCfg 100) sampleTrace).baseline_done =
      sampleTrace.any Event.isSweepEnd :=
  ⟨((baseline_once (initState sampleCfg 100) 130 rfl rfl).1).1,
   (baseline_once (initState sampleCfg 100) 130 rfl rfl).2.2.2
     sampleCfg 100 sampleTrace⟩

/-! ### C10: the online-record invariant -/

theorem touchSuccess_last_seen (now : Nat) (e : Record) :
    (touchSuccess now e).last_seen = some now := rfl

theorem touchSuccess_online (now : Nat) (e : Record) :
    (touchSuccess now e).online = true := rfl

theorem touchSuccess_first_seen_of_none {now : Nat} {e : Record}
    (h : e.first_seen = none) :
    (touchSuccess now e).first_seen = some now := by
  simp [touchSuccess, h]

theorem touchSuccess_first_seen_of_some {now f : Nat} {e : Record}
    (h : e.first_seen = some f) :
    (touchSuccess now e).first_seen = some f := by
  simp [touchSuccess, h]

theorem WFreg_mono {c c' : Nat} {reg : Registry} (h : WFreg c reg)
    (hc : c ≤ c') : WFreg c' reg := by
  intro p hp
  exact ⟨fun f hf => le_trans ((h p hp).1 f hf) hc, (h p hp).2.1,
    (h p hp).2.2⟩

theorem WFreg_upsert {c now : Nat} {reg : Registry} (h : WFreg c reg)
    (hc : c ≤ now) (ip : Nat) (ok : Bool) :
    WFreg now (upsertProbeResult ip ok now reg) := by
  have h' : WFreg now reg := WFreg_mono h hc
  intro p hp
  unfold upsertProbeResult at hp
  cases ok with
  | true =>
    rw [if_pos rfl] at hp
    cases hl : reg.lookup ip with
    | none =>
      simp only [hl] at hp
      rcases List.mem_append.1 hp with hm | hm
      · exact h' p hm
      · have hpe : p = (ip, freshRecord now) := by simpa using hm
        rw [hpe]
        refine ⟨?_, ?_, ?_⟩
        · intro f hf
          have : (freshRecord now).first_seen = some now := rfl
          rw [this] at hf
          cases hf
          exact le_refl now
        · intro _
          exact ⟨now, now, rfl, rfl, le_refl now⟩
        · intro hln
          have : (freshRecord now).last_seen = some now := rfl
          rw [this] at hln
          cases hln
    | some q0 =>
      simp only [hl] at hp
      unfold updateKey at hp
      rw [List.mem_map] at hp
      obtain ⟨q, hq, hqe⟩ := hp
      have hw := h' q hq
      by_cases hk : q.1 = ip
      · rw [if_pos hk] at hqe
        rw [← hqe]
        refine ⟨?_, ?_, ?_⟩
        · intro f hf
          cases hfs : q.2.first_seen with
          | none =>
            rw [touchSuccess_first_seen_of_none hfs] at hf
            cases hf
            exact le_refl now
          | some f0 =>
            rw [touchSuccess_first_seen_of_some hfs] at hf
            cases hf
            exact hw.1 _ hfs
        · intro _
          cases hfs : q.2.first_seen with
          | none =>
            exact ⟨now, now, touchSuccess_first_seen_of_none hfs,
              touchSuccess_last_seen now q.2, le_refl now⟩
          | some f0 =>
            exact ⟨f0, now, touchSuccess_first_seen_of_some hfs,
              touchSuccess_last_seen now q.2, hw.1 f0 hfs⟩
        · intro hln
          rw [touchSuccess_last_seen] at hln
          cases hln
      · rw [if_neg hk] at hqe
        rw [← hqe]
        exact hw
  | false =>
    rw [if_neg Bool.false_ne_true] at hp
    cases hl : reg.lookup ip with
    | none =>
      simp only [hl] at hp
      exact h' p hp
    | some q0 =>
      simp only [hl] at hp
      unfold updateKey at hp
      rw [List.mem_map] at hp
      obtain ⟨q, hq, hqe⟩ := hp
      have hw := h' q hq
      by_cases hk : q.1 = ip
      · rw [if_pos hk] at hqe
        rw [← hqe]
        refine ⟨?_, ?_, ?_⟩
        · intro f hf
          exact hw.1 f hf
        · intro ho
          cases ho
        · intro hln
          exact ⟨(hw.2.2 hln).1, (hw.2.2 hln).2.1, rfl⟩
      · rw [if_neg hk] at hqe
        rw [← hqe]
        exact hw

theorem WFreg_mark {c : Nat} {s : ScanState} (h : WFreg c s.devices) :
    WFreg c (markBaselineStep s).devices := by
  unfold markBaselineStep
  by_cases hcond : s.first_iteration = true ∧ s.baseline_done = false
  · rw [if_pos hcond]
    intro p hp
    simp only [List.mem_map] at hp
    obtain ⟨q, hq, hqe⟩ := hp
    rw [← hqe]
    exact h q hq
  · rw [if_neg hcond]
    exact h

theorem WFreg_evict {c now : Nat} {reg : Registry} (h : WFreg c reg) :
    WFreg c (evictStale now reg) :=
  fun p hp => h p (List.mem_filter.1 hp).1

theorem WFreg_init (cfg : List (Nat × StaticInfo)) (t0 : Nat) :
    WFreg t0 (initRegistry cfg t0) := by
  intro p hp
  unfold initRegistry at hp
  rw [List.mem_map] at hp
  obtain ⟨q, hq, hqe⟩ := hp
  rw [← hqe]
  refine ⟨?_, ?_, ?_⟩
  · intro f hf
    cases hf
  · intro ho
    cases ho
  · intro _
    exact ⟨rfl, rfl, rfl⟩

theorem WFreg_run (es : List Event) :
    ∀ (s : ScanState) (c : Nat), WFreg c s.devices → validTrace c es →
      ∃ c', WFreg c' (runEvents s es).devices := by
  induction es with
  | nil => exact fun s c h _ => ⟨c, h⟩
  | cons e t ih =>
    intro s c h hv
    obtain ⟨h1, h2⟩ := hv
    rw [runEvents_cons]
    refine ih (applyEvent s e) e.time ?_ h2
    cases e with
    | probe ip ok ti =>
      exact WFreg_upsert h h1 ip ok
    | sweepEnd ti =>
      exact WFreg_evict (WFreg_mark (WFreg_mono h h1))

/-- **C10**: along any startup trace with nondecreasing probe times, every
registry operation preserves that an online record has both `first_seen`
and `last_seen` set with `first_seen ≤ last_seen`, and that a missing
`last_seen` occurs only on an offline static-seeded record that was never
successfully probed; consequently every online device emitted by the view
builder has non-null `age_seconds` and `last_seen_seconds_ago`. -/
theorem registry_invariant (cfg : List (Nat × StaticInfo)) (t0 : Nat)
    (es : List Event) (hv : validTrace t0 es) :
    (∀ ip r, (ip, r) ∈ (runEvents (initState cfg t0) es).devices →
      (r.online = true → ∃ f l, r.first_seen = some f ∧
        r.last_seen = some l ∧ f ≤ l) ∧
      (r.last_seen = none → r.online = false ∧
        r.from_known_hosts = true ∧ r.first_seen = none)) ∧
    (∀ now b,
      ∀ v ∈ buildView now b (runEvents (initState cfg t0) es).devices,
        v.online = true →
          v.age_seconds ≠ none ∧ v.last_seen_seconds_ago ≠ none) := by
  obtain ⟨c', hwf⟩ :=
    WFreg_run es (initState cfg t0) t0 (WFreg_init cfg t0) hv
  constructor
  · intro ip r hm
    have hw := hwf (ip, r) hm
    exact ⟨hw.2.1, fun hln =>
      ⟨(hw.2.2 hln).2.2, (hw.2.2 hln).1, (hw.2.2 hln).2.1⟩⟩
  · intro now b v hv' ho
    rw [mem_buildView] at hv'
    obtain ⟨e, he, rfl⟩ := hv'
    rw [mem_buildViewEntries] at he
    obtain ⟨⟨pk, pd⟩, hp, hmk⟩ := he
    have he2 : e = entryOf now b pk pd := (mkEntry_eq_some_iff.1 hmk).2
    subst he2
    have hod : pd.online = true := ho
    have hw := hwf (pk, pd) hp
    obtain ⟨f, l, hf, hl, -⟩ := hw.2.1 hod
    constructor
    · show viewAge now pd ≠ none
      unfold viewAge
      rw [hf]
      simp
    · show viewLastSeenAgo now pd ≠ none
      unfold viewLastSeenAgo
      rw [hl]
      simp

/-- Witness for C10: after a probe success at t=10 and the first sweep's
bookkeeping at t=20, the discovered record is online with
`first_seen = last_seen = 10`. -/
theorem registry_invariant_witness :
    ∃ f l,
      ({ freshRecord 10 with seen_before_baseline := true } :
        Record).first_seen = some f ∧
      ({ freshRecord 10 with seen_before_baseline := true } :
        Record).last_seen = some l ∧ f ≤ l :=
  ((registry_invariant [] 0 sampleTrace
      (by exact ⟨by decide, by decide, trivial⟩)).1 9
    { freshRecord 10 with seen_before_baseline := true }
    (by decide)).1 (by decide)

end UptimeMonitor
